import Mathlib

/-
Verification of the inlining-decision engine described in spec.md against
src/src/jit/inlinepolicy.h.  The repository ships only the policy header
(declarations, inline method bodies, constants and class comments); the
implementation file inlinepolicy.cpp is not under src/, so the bodies of the
LegalPolicy transition helpers and of the various DetermineProfitability /
NoteBool / NoteInt overrides are modelled from the spec, as marked on each
definition.  Definitions whose bodies do appear in the header (for example
LegacyPolicy::PropagateNeverToRuntime, RandomPolicy::CodeSizeEstimate,
ModelPolicy::PropagateNeverToRuntime, the SIZE_SCALE constant) are translated
directly from that code.
-/

namespace InlinePolicy

/-- Modelled from the spec: the impact classes of observation kinds
(spec section 3, Data Model).  The real enumeration lives in inline.h /
inline.def, which are not under src/.  Fatal is correctness-blocking and
always fails, Fundamental blocks the callee permanently (cacheable Never),
Limit is a budget overrun, Informative feeds the cost model and never
itself fails. -/
inductive InlineImpact
  | fatal
  | fundamental
  | limit
  | informative
deriving DecidableEq, Repr, Fintype

/-- Modelled from the spec: a representative set of observation kinds
(spec section 3 gives examples such as callee-is-recursive,
caller-is-synchronized, instruction counts and budget overruns).  The real
enumeration lives in inline.def, which is not under src/. -/
inductive InlineObservation
  | callerIsSynchronized
  | calleeIsVarArgs
  | calleeIsRecursive
  | calleeDoesNotReturn
  | callsiteExceedsBudget
  | callsiteNotProfitable
  | calleeIsForceInline
  | calleeIlCodeSize
  | calleeNumberOfBasicBlocks
  | calleeBelowAlwaysInlineSize
deriving DecidableEq, Repr, Fintype

/-- Modelled from the spec: the statically known impact class of each
observation kind (spec section 3). -/
def impact : InlineObservation → InlineImpact
  | .callerIsSynchronized => .fatal
  | .calleeIsVarArgs => .fatal
  | .calleeIsRecursive => .fundamental
  | .calleeDoesNotReturn => .fundamental
  | .callsiteExceedsBudget => .limit
  | .callsiteNotProfitable => .limit
  | .calleeIsForceInline => .informative
  | .calleeIlCodeSize => .informative
  | .calleeNumberOfBasicBlocks => .informative
  | .calleeBelowAlwaysInlineSize => .informative

/-- An impact class that puts the policy into a failing state (spec
section 3: Fatal, Fundamental and Limit fail; Informative never does). -/
def isFailingImpact : InlineImpact → Bool
  | .fatal => true
  | .fundamental => true
  | .limit => true
  | .informative => false

/-- The decision states of the legality state machine (spec section 3:
Undetermined, Candidate, Success, Failure, Never). -/
inductive InlineDecision
  | undetermined
  | candidate
  | success
  | failure
  | never
deriving DecidableEq, Repr, Fintype

/-- A decision state is failing when it is Failure or Never. -/
def InlineDecision.isFailing : InlineDecision → Bool
  | .failure => true
  | .never => true
  | _ => false

/-- The decision-relevant state of a policy instance: the prejit-root flag
passed at construction (LegalPolicy constructor, inlinepolicy.h line 52),
the current decision and the recorded (first) observation. -/
structure PolicyState where
  isPrejitRoot : Bool
  decision : InlineDecision
  observation : Option InlineObservation
deriving DecidableEq, Repr, Fintype

/-- The state of a freshly constructed policy: undetermined, no recorded
observation. -/
def initialState (isPrejitRoot : Bool) : PolicyState :=
  { isPrejitRoot := isPrejitRoot, decision := .undetermined, observation := none }

/-- Whether a new failing observation has the same impact class as the
recorded one (header comment, inlinepolicy.h lines 36-45: multiple failing
observations are allowed in the prejit scan case provided they have the
same impact). -/
def matchesRecordedImpact (obs : InlineObservation) (s : PolicyState) : Bool :=
  match s.observation with
  | some prior => decide (impact prior = impact obs)
  | none => false

/-- Modelled from the spec: LegalPolicy::SetFailure (declared at
inlinepolicy.h line 64, body not under src/).  Records the first failing
observation and moves to Failure; in scan (prejit) mode a repeated failing
observation of the same impact is tolerated silently; any other call in a
terminal state is a protocol fault, modelled as none. -/
def SetFailure (obs : InlineObservation) (s : PolicyState) : Option PolicyState :=
  match s.decision with
  | .undetermined => some { s with decision := .failure, observation := some obs }
  | .candidate => some { s with decision := .failure, observation := some obs }
  | .failure =>
      if s.isPrejitRoot && matchesRecordedImpact obs s then some s else none
  | _ => none

/-- Modelled from the spec: LegalPolicy::SetNever (declared at
inlinepolicy.h line 65, body not under src/).  Like SetFailure but moves to
the stronger, cacheable Never state. -/
def SetNever (obs : InlineObservation) (s : PolicyState) : Option PolicyState :=
  match s.decision with
  | .undetermined => some { s with decision := .never, observation := some obs }
  | .candidate => some { s with decision := .never, observation := some obs }
  | .never =>
      if s.isPrejitRoot && matchesRecordedImpact obs s then some s else none
  | _ => none

/-- Modelled from the spec: LegalPolicy::SetCandidate (declared at
inlinepolicy.h line 63, body not under src/).  Undetermined to Candidate
only (spec section 4.2); any other source state is a fault. -/
def SetCandidate (obs : InlineObservation) (s : PolicyState) : Option PolicyState :=
  match s.decision with
  | .undetermined => some { s with decision := .candidate, observation := some obs }
  | _ => none

/-- Modelled from the spec: the SetSuccess step performed by NoteSuccess
(spec section 4.2): Candidate to Success only; anything else is a driver
fault. -/
def SetSuccess (s : PolicyState) : Option PolicyState :=
  match s.decision with
  | .candidate => some { s with decision := .success }
  | _ => none

/-- Modelled from the spec: LegalPolicy::NoteInternal (declared at
inlinepolicy.h line 62, body not under src/).  Routes a failing observation
by impact class: Fundamental observations block the callee permanently
(SetNever), Fatal and Limit observations fail the call site (SetFailure);
an Informative observation must be handled by the concrete policy and
reaching here with one is a fault. -/
def NoteInternal (obs : InlineObservation) (s : PolicyState) : Option PolicyState :=
  match impact obs with
  | .fundamental => SetNever obs s
  | .fatal => SetFailure obs s
  | .limit => SetFailure obs s
  | .informative => none

/-- Modelled from the spec: LegalPolicy::NoteFatal (inlinepolicy.h line 58,
body not under src/): records a Fatal-impact observation (spec section 4.1);
a non-Fatal kind passed here is a driver fault. -/
def NoteFatal (obs : InlineObservation) (s : PolicyState) : Option PolicyState :=
  if impact obs = .fatal then NoteInternal obs s else none

-- Characterization lemmas for the transition helpers.

theorem SetFailure_cases {obs : InlineObservation} {s s' : PolicyState}
    (h : SetFailure obs s = some s') :
    s' = s ∨ s'.decision = .failure := by
  cases hd : s.decision
  case undetermined => simp [SetFailure, hd] at h; right; rw [← h]
  case candidate => simp [SetFailure, hd] at h; right; rw [← h]
  case success => simp [SetFailure, hd] at h
  case failure => simp [SetFailure, hd] at h; left; exact h.2.symm
  case never => simp [SetFailure, hd] at h

theorem SetFailure_failing {obs : InlineObservation} {s s' : PolicyState}
    (h : SetFailure obs s = some s') (hf : s.decision.isFailing = true) :
    s' = s := by
  cases hd : s.decision
  case undetermined => rw [hd] at hf; simp [InlineDecision.isFailing] at hf
  case candidate => rw [hd] at hf; simp [InlineDecision.isFailing] at hf
  case success => simp [SetFailure, hd] at h
  case failure => simp [SetFailure, hd] at h; exact h.2.symm
  case never => simp [SetFailure, hd] at h

theorem SetNever_cases {obs : InlineObservation} {s s' : PolicyState}
    (h : SetNever obs s = some s') :
    s' = s ∨ s'.decision = .never := by
  cases hd : s.decision
  case undetermined => simp [SetNever, hd] at h; right; rw [← h]
  case candidate => simp [SetNever, hd] at h; right; rw [← h]
  case success => simp [SetNever, hd] at h
  case failure => simp [SetNever, hd] at h
  case never => simp [SetNever, hd] at h; left; exact h.2.symm

theorem SetNever_failing {obs : InlineObservation} {s s' : PolicyState}
    (h : SetNever obs s = some s') (hf : s.decision.isFailing = true) :
    s' = s := by
  cases hd : s.decision
  case undetermined => rw [hd] at hf; simp [InlineDecision.isFailing] at hf
  case candidate => rw [hd] at hf; simp [InlineDecision.isFailing] at hf
  case success => simp [SetNever, hd] at h
  case failure => simp [SetNever, hd] at h
  case never => simp [SetNever, hd] at h; exact h.2.symm

theorem SetCandidate_cases {obs : InlineObservation} {s s' : PolicyState}
    (h : SetCandidate obs s = some s') :
    s.decision = .undetermined ∧ s'.decision = .candidate := by
  cases hd : s.decision
  case undetermined =>
    simp [SetCandidate, hd] at h
    exact ⟨rfl, by rw [← h]⟩
  case candidate => simp [SetCandidate, hd] at h
  case success => simp [SetCandidate, hd] at h
  case failure => simp [SetCandidate, hd] at h
  case never => simp [SetCandidate, hd] at h

theorem SetSuccess_cases {s s' : PolicyState}
    (h : SetSuccess s = some s') :
    s.decision = .candidate ∧ s'.decision = .success := by
  cases hd : s.decision
  case undetermined => simp [SetSuccess, hd] at h
  case candidate =>
    simp [SetSuccess, hd] at h
    exact ⟨rfl, by rw [← h]⟩
  case success => simp [SetSuccess, hd] at h
  case failure => simp [SetSuccess, hd] at h
  case never => simp [SetSuccess, hd] at h

theorem NoteInternal_cases {obs : InlineObservation} {s s' : PolicyState}
    (h : NoteInternal obs s = some s') :
    s' = s ∨ s'.decision = .failure ∨ s'.decision = .never := by
  unfold NoteInternal at h
  cases himp : impact obs <;> rw [himp] at h
  · cases SetFailure_cases h with
    | inl h1 => exact Or.inl h1
    | inr h1 => exact Or.inr (Or.inl h1)
  · cases SetNever_cases h with
    | inl h1 => exact Or.inl h1
    | inr h1 => exact Or.inr (Or.inr h1)
  · cases SetFailure_cases h with
    | inl h1 => exact Or.inl h1
    | inr h1 => exact Or.inr (Or.inl h1)
  · simp_all

theorem NoteInternal_failing {obs : InlineObservation} {s s' : PolicyState}
    (h : NoteInternal obs s = some s') (hf : s.decision.isFailing = true) :
    s' = s := by
  unfold NoteInternal at h
  cases himp : impact obs <;> rw [himp] at h
  · exact SetFailure_failing h hf
  · exact SetNever_failing h hf
  · exact SetFailure_failing h hf
  · simp_all

theorem NoteFatal_cases {obs : InlineObservation} {s s' : PolicyState}
    (h : NoteFatal obs s = some s') :
    s' = s ∨ s'.decision = .failure ∨ s'.decision = .never := by
  unfold NoteFatal at h
  split at h
  · exact NoteInternal_cases h
  · simp_all

theorem NoteFatal_failing {obs : InlineObservation} {s s' : PolicyState}
    (h : NoteFatal obs s = some s') (hf : s.decision.isFailing = true) :
    s' = s := by
  unfold NoteFatal at h
  split at h
  · exact NoteInternal_failing h hf
  · simp_all

/-- Modelled from the spec (section 4.1): how a concrete policy classifies a
noteBool or noteInt fact — either heuristic input (stored; decision state
unaffected), a promotion of the candidate (SetCandidate), or a legality
violation routed to NoteInternal. -/
inductive ObsResponse
  | store
  | newCandidate (obs : InlineObservation)
  | violation (obs : InlineObservation)
deriving DecidableEq, Repr

/-- Effect of a classified noteBool / noteInt fact on the decision state. -/
def respond : ObsResponse → PolicyState → Option PolicyState
  | .store, s => some s
  | .newCandidate obs, s => SetCandidate obs s
  | .violation obs, s => NoteInternal obs s

/-- One driver action against a policy: NoteFatal, a classified NoteBool, a
classified NoteInt, or NoteSuccess (spec section 4.1).  Every policy's
observation handlers change the decision state only through the shared
LegalPolicy helpers (spec section 4.2), so this captures all of them. -/
inductive Step
  | fatalObs (obs : InlineObservation)
  | boolObs (resp : ObsResponse)
  | intObs (resp : ObsResponse)
  | successObs
deriving DecidableEq, Repr

/-- Apply one driver action to the decision state; none is a protocol
fault (assertion in the code). -/
def applyStep : Step → PolicyState → Option PolicyState
  | .fatalObs obs, s => NoteFatal obs s
  | .boolObs r, s => respond r s
  | .intObs r, s => respond r s
  | .successObs, s => SetSuccess s

/-- Run a sequence of driver actions, stopping at the first fault. -/
def runSteps : List Step → PolicyState → Option PolicyState
  | [], s => some s
  | st :: rest, s => (applyStep st s).bind (runSteps rest)

theorem respond_failing {r : ObsResponse} {s s' : PolicyState}
    (h : respond r s = some s') (hf : s.decision.isFailing = true) :
    s' = s := by
  cases r
  case store => exact (Option.some_inj.mp h).symm
  case newCandidate obs =>
    have h1 := SetCandidate_cases h
    rw [h1.1] at hf
    simp [InlineDecision.isFailing] at hf
  case violation obs => exact NoteInternal_failing h hf

theorem applyStep_failing {st : Step} {s s' : PolicyState}
    (h : applyStep st s = some s') (hf : s.decision.isFailing = true) :
    s' = s := by
  cases st
  case fatalObs obs => exact NoteFatal_failing h hf
  case boolObs r => exact respond_failing h hf
  case intObs r => exact respond_failing h hf
  case successObs =>
    have h1 := SetSuccess_cases h
    rw [h1.1] at hf
    simp [InlineDecision.isFailing] at hf

theorem runSteps_failing {steps : List Step} :
    ∀ {s s' : PolicyState}, runSteps steps s = some s' →
      s.decision.isFailing = true → s' = s := by
  induction steps with
  | nil =>
      intro s s' h _
      exact (Option.some_inj.mp h).symm
  | cons st rest ih =>
      intro s s' h hf
      unfold runSteps at h
      cases hstep : applyStep st s with
      | none => rw [hstep] at h; simp at h
      | some s1 =>
          rw [hstep] at h
          have h2 : runSteps rest s1 = some s' := h
          rw [applyStep_failing hstep hf] at h2
          exact ih h2 hf

theorem applyStep_forward {st : Step} {s s' : PolicyState}
    (h : applyStep st s = some s') :
    (s'.decision = .candidate → s.decision = .candidate ∨ s.decision = .undetermined)
    ∧ (s'.decision = .success → s.decision = .success ∨ s.decision = .candidate) := by
  cases st
  case fatalObs obs =>
    rcases NoteFatal_cases h with h1 | h1 | h1
    · rw [h1]
      exact ⟨fun hc => Or.inl hc, fun hc => Or.inl hc⟩
    · constructor <;> intro hc <;> rw [hc] at h1 <;> simp at h1
    · constructor <;> intro hc <;> rw [hc] at h1 <;> simp at h1
  case boolObs r =>
    cases r
    case store =>
      rw [← Option.some_inj.mp h]
      exact ⟨fun hc => Or.inl hc, fun hc => Or.inl hc⟩
    case newCandidate obs =>
      have h1 := SetCandidate_cases h
      exact ⟨fun _ => Or.inr h1.1, fun hc => by rw [hc] at h1; simp at h1⟩
    case violation obs =>
      rcases NoteInternal_cases h with h1 | h1 | h1
      · rw [h1]
        exact ⟨fun hc => Or.inl hc, fun hc => Or.inl hc⟩
      · constructor <;> intro hc <;> rw [hc] at h1 <;> simp at h1
      · constructor <;> intro hc <;> rw [hc] at h1 <;> simp at h1
  case intObs r =>
    cases r
    case store =>
      rw [← Option.some_inj.mp h]
      exact ⟨fun hc => Or.inl hc, fun hc => Or.inl hc⟩
    case newCandidate obs =>
      have h1 := SetCandidate_cases h
      exact ⟨fun _ => Or.inr h1.1, fun hc => by rw [hc] at h1; simp at h1⟩
    case violation obs =>
      rcases NoteInternal_cases h with h1 | h1 | h1
      · rw [h1]
        exact ⟨fun hc => Or.inl hc, fun hc => Or.inl hc⟩
      · constructor <;> intro hc <;> rw [hc] at h1 <;> simp at h1
      · constructor <;> intro hc <;> rw [hc] at h1 <;> simp at h1
  case successObs =>
    have h1 := SetSuccess_cases h
    exact ⟨fun hc => by rw [hc] at h1; simp at h1, fun _ => Or.inr h1.1⟩

/-- C1: once a policy is in Failure or Never, no sequence of further
driver observations (NoteFatal, classified NoteBool / NoteInt facts, or
NoteSuccess) can move it anywhere — in particular not to Candidate or
Success — and the only forward transitions a single observation can make
are Undetermined to Candidate (SetCandidate) and Candidate to Success
(SetSuccess). -/
theorem legalPolicy_monotonic_fail_fast :
    (∀ (steps : List Step) (s s' : PolicyState),
        runSteps steps s = some s' → s.decision.isFailing = true →
          s'.decision = s.decision)
    ∧ (∀ (st : Step) (s s' : PolicyState), applyStep st s = some s' →
        (s'.decision = .candidate →
          s.decision = .candidate ∨ s.decision = .undetermined)
        ∧ (s'.decision = .success →
          s.decision = .success ∨ s.decision = .candidate)) := by
  constructor
  · intro steps s s' h hf
    rw [runSteps_failing h hf]
  · intro st s s' h
    exact applyStep_forward h

/-- A concrete state already in Failure during a prejit scan. -/
def scanFailedState : PolicyState :=
  { isPrejitRoot := true, decision := .failure,
    observation := some .callerIsSynchronized }

/-- A concrete state that just became Candidate on a small-callee
observation. -/
def smallCandidateState : PolicyState :=
  { isPrejitRoot := false, decision := .candidate,
    observation := some .calleeBelowAlwaysInlineSize }

/-- Witness for C1: from a concrete Failure state of a prejit scan, a
repeated same-impact fatal observation plus a stored heuristic fact run
without fault and leave the decision at Failure, and a concrete
SetCandidate step makes the Undetermined-to-Candidate transition. -/
theorem legalPolicy_monotonic_fail_fast_witness :
    runSteps [Step.fatalObs .calleeIsVarArgs, Step.boolObs .store]
        scanFailedState = some scanFailedState
    ∧ scanFailedState.decision.isFailing = true
    ∧ scanFailedState.decision = scanFailedState.decision
    ∧ applyStep (Step.intObs (.newCandidate .calleeBelowAlwaysInlineSize))
        (initialState false) = some smallCandidateState
    ∧ ((smallCandidateState.decision = .candidate →
          (initialState false).decision = .candidate ∨
            (initialState false).decision = .undetermined)
        ∧ (smallCandidateState.decision = .success →
          (initialState false).decision = .success ∨
            (initialState false).decision = .candidate)) :=
  ⟨by decide, by decide,
    legalPolicy_monotonic_fail_fast.1
      [Step.fatalObs .calleeIsVarArgs, Step.boolObs .store]
      scanFailedState scanFailedState (by decide) (by decide),
    by decide,
    legalPolicy_monotonic_fail_fast.2
      (Step.intObs (.newCandidate .calleeBelowAlwaysInlineSize))
      (initialState false) smallCandidateState (by decide)⟩

/-- C2: in a prejit (whole-method scan) evaluation, once a first failing
observation has put the policy into a failing state, a later failing
observation of the same impact class is accepted silently, leaving the
state (and in particular the recorded reason, which stays the first
observation) unchanged, while a later failing observation of a different
impact class is a protocol fault. -/
theorem legalPolicy_scan_same_impact_tolerance
    (obs1 obs2 : InlineObservation) (s : PolicyState)
    (h1 : NoteInternal obs1 (initialState true) = some s)
    (h2 : isFailingImpact (impact obs2) = true) :
    (impact obs2 = impact obs1 →
      NoteInternal obs2 s = some s ∧ s.observation = some obs1)
    ∧ (impact obs2 ≠ impact obs1 → NoteInternal obs2 s = none) := by
  revert s h1 h2
  cases obs1 <;> cases obs2 <;> decide

/-- Witness for C2: the scan that saw caller-is-synchronized (Fatal) first
tolerates a later callee-is-vararg (also Fatal) silently and keeps the
first reason, and faults on a later budget (Limit) observation. -/
theorem legalPolicy_scan_same_impact_tolerance_witness :
    NoteInternal .callerIsSynchronized (initialState true) =
        some scanFailedState
    ∧ isFailingImpact (impact InlineObservation.calleeIsVarArgs) = true
    ∧ (impact InlineObservation.calleeIsVarArgs =
          impact InlineObservation.callerIsSynchronized →
        NoteInternal .calleeIsVarArgs scanFailedState = some scanFailedState
        ∧ scanFailedState.observation = some .callerIsSynchronized)
    ∧ (impact InlineObservation.callsiteExceedsBudget ≠
          impact InlineObservation.callerIsSynchronized →
        NoteInternal .callsiteExceedsBudget scanFailedState = none) :=
  ⟨by decide, by decide,
    (legalPolicy_scan_same_impact_tolerance .callerIsSynchronized
      .calleeIsVarArgs scanFailedState (by decide) (by decide)).1,
    (legalPolicy_scan_same_impact_tolerance .callerIsSynchronized
      .callsiteExceedsBudget scanFailedState (by decide) (by decide)).2⟩

theorem SetFailure_decision {obs : InlineObservation} {s s' : PolicyState}
    (h : SetFailure obs s = some s') : s'.decision = .failure := by
  cases hd : s.decision
  case undetermined => simp [SetFailure, hd] at h; rw [← h]
  case candidate => simp [SetFailure, hd] at h; rw [← h]
  case success => simp [SetFailure, hd] at h
  case failure => simp [SetFailure, hd] at h; rw [← h.2, hd]
  case never => simp [SetFailure, hd] at h

theorem SetNever_decision {obs : InlineObservation} {s s' : PolicyState}
    (h : SetNever obs s = some s') : s'.decision = .never := by
  cases hd : s.decision
  case undetermined => simp [SetNever, hd] at h; rw [← h]
  case candidate => simp [SetNever, hd] at h; rw [← h]
  case success => simp [SetNever, hd] at h
  case failure => simp [SetNever, hd] at h
  case never => simp [SetNever, hd] at h; rw [← h.2, hd]

/-- State of a LegacyPolicy instance: the legality state plus the fields of
inlinepolicy.h lines 148-167 that the cost-model claims depend on.  The
contextual multiplier (m_Multiplier, a double in the code) is modelled as a
rational number. -/
structure LegacyPolicyState extends PolicyState where
  multiplier : ℚ
  codeSize : Nat
  calleeNativeSizeEstimate : Int
  callsiteNativeSizeEstimate : Int
  isForceInline : Bool
  isForceInlineKnown : Bool
deriving DecidableEq

/-- The fixed budget scale constant, from the header enum at
inlinepolicy.h lines 137-141. -/
def SIZE_SCALE : Int := 10

/-- The maximum number of basic blocks tracked by the Legacy recognizer,
from the header enum at inlinepolicy.h lines 137-141. -/
def MAX_BASIC_BLOCKS : Nat := 5

/-- Lift a legality-state transition to the LegacyPolicy state. -/
def liftLegacy (f : PolicyState → Option PolicyState)
    (s : LegacyPolicyState) : Option LegacyPolicyState :=
  (f s.toPolicyState).map (fun p => { s with toPolicyState := p })

/-- The net native size delta of the candidate: the callee native-size
estimate minus the call site's removed call-sequence overhead (spec
section 4.3, steps 2-3; the estimates are m_CalleeNativeSizeEstimate and
m_CallsiteNativeSizeEstimate of inlinepolicy.h lines 159-160). -/
def netNativeSizeDelta (s : LegacyPolicyState) : Int :=
  s.calleeNativeSizeEstimate - s.callsiteNativeSizeEstimate

namespace LegacyPolicy

/-- Modelled from the spec: LegacyPolicy::DetermineProfitability (declared
at inlinepolicy.h line 111, body not under src/).  Spec section 4.3 step 4:
accept if netDelta multiplied by the contextual multiplier is at most the
budget (the fixed scale constant SIZE_SCALE), else SetFailure with the
exceeds-budget reason. -/
def DetermineProfitability (s : LegacyPolicyState) : Option LegacyPolicyState :=
  if (netNativeSizeDelta s : ℚ) * s.multiplier ≤ (SIZE_SCALE : ℚ) then
    some s
  else
    liftLegacy (SetFailure .callsiteExceedsBudget) s

/-- LegacyPolicy::PropagateNeverToRuntime, translated from the inline body
at inlinepolicy.h lines 114-117: unconditionally true. -/
def PropagateNeverToRuntime (_s : LegacyPolicyState) : Bool :=
  true

/-- LegacyPolicy::IsLegacyPolicy, translated from the inline body at
inlinepolicy.h lines 118-121. -/
def IsLegacyPolicy (_s : LegacyPolicyState) : Bool :=
  true

/-- Modelled from the spec: LegacyPolicy::NoteBool (declared at
inlinepolicy.h line 107, body not under src/).  Spec section 4.1: a policy
interprets each kind either as a legality violation or as heuristic input;
the force-inline flag pair is stored (inlinepolicy.h lines 161-162), the
callee-does-not-return fact is not a legacy concern and leaves the state
unaffected (spec section 8, concrete scenario), and failing kinds route to
NoteInternal. -/
def NoteBool (obs : InlineObservation) (value : Bool)
    (s : LegacyPolicyState) : Option LegacyPolicyState :=
  match obs with
  | .calleeIsForceInline =>
      some { s with isForceInline := value, isForceInlineKnown := true }
  | .calleeDoesNotReturn => some s
  | _ =>
      if isFailingImpact (impact obs) then liftLegacy (NoteInternal obs) s
      else some s

end LegacyPolicy

theorem liftLegacy_decision {f : PolicyState → Option PolicyState}
    {s s' : LegacyPolicyState} (h : liftLegacy f s = some s') :
    ∃ p, f s.toPolicyState = some p ∧ s' = { s with toPolicyState := p } := by
  unfold liftLegacy at h
  cases hp : f s.toPolicyState with
  | none => rw [hp] at h; simp at h
  | some p =>
      rw [hp] at h
      exact ⟨p, rfl, (Option.some_inj.mp h).symm⟩

/-- C3: under the Legacy cost model, a candidate is accepted exactly when
netDelta times the contextual multiplier is at most the budget constant
SIZE_SCALE, where netDelta is the callee native-size estimate minus the
call site's removed call-sequence overhead; otherwise the policy records a
failure with the exceeds-budget reason. -/
theorem legacyPolicy_budget_acceptance (s : LegacyPolicyState)
    (hc : s.decision = .candidate) :
    ((∃ s', LegacyPolicy.DetermineProfitability s = some s'
        ∧ s'.decision = .candidate)
      ↔ (netNativeSizeDelta s : ℚ) * s.multiplier ≤ (SIZE_SCALE : ℚ))
    ∧ (¬ (netNativeSizeDelta s : ℚ) * s.multiplier ≤ (SIZE_SCALE : ℚ) →
        ∃ s', LegacyPolicy.DetermineProfitability s = some s'
          ∧ s'.decision = .failure
          ∧ s'.observation = some .callsiteExceedsBudget) := by
  by_cases hle : (netNativeSizeDelta s : ℚ) * s.multiplier ≤ (SIZE_SCALE : ℚ)
  · constructor
    · constructor
      · intro _
        exact hle
      · intro _
        refine ⟨s, ?_, hc⟩
        unfold LegacyPolicy.DetermineProfitability
        rw [if_pos hle]
    · intro hn
      exact absurd hle hn
  · have hrej : LegacyPolicy.DetermineProfitability s =
        liftLegacy (SetFailure .callsiteExceedsBudget) s := by
      unfold LegacyPolicy.DetermineProfitability
      rw [if_neg hle]
    constructor
    · constructor
      · rintro ⟨s', hs', hcand⟩
        rw [hrej] at hs'
        obtain ⟨p, hp, hsp⟩ := liftLegacy_decision hs'
        have hdec : s'.decision = .failure := by
          rw [hsp]
          exact SetFailure_decision hp
        rw [hcand] at hdec
        exact absurd hdec (by simp)
      · intro hcond
        exact absurd hcond hle
    · intro _
      have hsf : SetFailure .callsiteExceedsBudget s.toPolicyState =
          some { s.toPolicyState with
                 decision := .failure
                 observation := some .callsiteExceedsBudget } := by
        unfold SetFailure
        rw [hc]
      refine ⟨{ s with toPolicyState :=
          { s.toPolicyState with
            decision := .failure
            observation := some .callsiteExceedsBudget } }, ?_, rfl, rfl⟩
      rw [hrej]
      unfold liftLegacy
      rw [hsf]
      rfl

/-- A concrete Legacy candidate: callee estimate 12, removed call-site
overhead 9 (net delta 3), contextual multiplier 3. -/
def legacyCandidateState : LegacyPolicyState :=
  { isPrejitRoot := false, decision := .candidate,
    observation := some .calleeBelowAlwaysInlineSize,
    multiplier := 3, codeSize := 40,
    calleeNativeSizeEstimate := 12, callsiteNativeSizeEstimate := 9,
    isForceInline := false, isForceInlineKnown := true }

/-- Witness for C3: at the concrete candidate (net delta 3, multiplier 3,
budget 10) the acceptance test and the failure branch behave as the
theorem states. -/
theorem legacyPolicy_budget_acceptance_witness :
    legacyCandidateState.decision = .candidate
    ∧ (((∃ s', LegacyPolicy.DetermineProfitability legacyCandidateState = some s'
        ∧ s'.decision = .candidate)
      ↔ (netNativeSizeDelta legacyCandidateState : ℚ) *
          legacyCandidateState.multiplier ≤ (SIZE_SCALE : ℚ))
    ∧ (¬ (netNativeSizeDelta legacyCandidateState : ℚ) *
          legacyCandidateState.multiplier ≤ (SIZE_SCALE : ℚ) →
        ∃ s', LegacyPolicy.DetermineProfitability legacyCandidateState = some s'
          ∧ s'.decision = .failure
          ∧ s'.observation = some .callsiteExceedsBudget)) :=
  ⟨rfl, legacyPolicy_budget_acceptance legacyCandidateState rfl⟩

/-- A concrete Legacy evaluation: candidate, callee estimate 11, removed
call-site overhead 10 (net delta 1), contextual multiplier 5. -/
def lowMultiplierState : LegacyPolicyState :=
  { isPrejitRoot := false, decision := .candidate,
    observation := some .calleeBelowAlwaysInlineSize,
    multiplier := 5, codeSize := 30,
    calleeNativeSizeEstimate := 11, callsiteNativeSizeEstimate := 10,
    isForceInline := false, isForceInlineKnown := true }

/-- The same evaluation with the multiplier raised to 20, all else equal. -/
def highMultiplierState : LegacyPolicyState :=
  { lowMultiplierState with multiplier := 20 }

/-- The rejected outcome of the high-multiplier evaluation. -/
def highMultiplierRejected : LegacyPolicyState :=
  { highMultiplierState with toPolicyState :=
      { highMultiplierState.toPolicyState with
        decision := .failure
        observation := some .callsiteExceedsBudget } }

/-- Counterexample to C7 as stated: with the callee and every other
observation held equal (net delta 1), the Legacy acceptance rule accepts at
multiplier 5 (1 * 5 is at most the budget 10) but rejects at the larger
multiplier 20 (1 * 20 exceeds 10), so increasing the call-site multiplier
does change the verdict from accept to reject. -/
theorem legacyPolicy_multiplier_monotonicity_counterexample :
    lowMultiplierState.multiplier ≤ highMultiplierState.multiplier
    ∧ lowMultiplierState.decision = .candidate
    ∧ highMultiplierState.decision = .candidate
    ∧ highMultiplierState =
        { lowMultiplierState with multiplier := highMultiplierState.multiplier }
    ∧ LegacyPolicy.DetermineProfitability lowMultiplierState =
        some lowMultiplierState
    ∧ LegacyPolicy.DetermineProfitability highMultiplierState =
        some highMultiplierRejected
    ∧ highMultiplierRejected.decision = .failure := by
  refine ⟨by norm_num [lowMultiplierState, highMultiplierState], rfl, rfl, rfl, ?_, ?_, rfl⟩
  · unfold LegacyPolicy.DetermineProfitability
    rw [if_pos (by norm_num [netNativeSizeDelta, lowMultiplierState, SIZE_SCALE])]
  · unfold LegacyPolicy.DetermineProfitability
    rw [if_neg (by norm_num [netNativeSizeDelta, highMultiplierState,
          lowMultiplierState, SIZE_SCALE])]
    rfl

/-- C7 amended: under the Legacy (and Discretionary) acceptance rule the
verdict is monotone non-increasing in the contextual multiplier — for a
fixed callee with all other observations held equal and a nonnegative
multiplier, increasing the multiplier never changes the verdict from
reject to accept (equivalently, decreasing it never turns an accepted
candidate into a rejected one). -/
theorem legacyPolicy_multiplier_antitone (s : LegacyPolicyState) (m m' : ℚ)
    (hm : 0 ≤ m) (hmm : m ≤ m')
    (hacc : ∃ s', LegacyPolicy.DetermineProfitability
        { s with multiplier := m' } = some s' ∧ s'.decision = .candidate) :
    ∃ s', LegacyPolicy.DetermineProfitability
        { s with multiplier := m } = some s' ∧ s'.decision = .candidate := by
  obtain ⟨s', hs', hcand⟩ := hacc
  by_cases hcond : (netNativeSizeDelta { s with multiplier := m' } : ℚ) * m'
      ≤ (SIZE_SCALE : ℚ)
  · have hdelta : netNativeSizeDelta { s with multiplier := m } =
        netNativeSizeDelta { s with multiplier := m' } := rfl
    have hsome : LegacyPolicy.DetermineProfitability
        { s with multiplier := m' } = some { s with multiplier := m' } := by
      unfold LegacyPolicy.DetermineProfitability
      rw [if_pos hcond]
    rw [hsome] at hs'
    have hseq := Option.some_inj.mp hs'
    have hcand' : s.decision = .candidate := by
      rw [← hseq] at hcand
      exact hcand
    have hcond' : (netNativeSizeDelta { s with multiplier := m } : ℚ) * m
        ≤ (SIZE_SCALE : ℚ) := by
      rw [hdelta]
      rcases le_or_lt ((netNativeSizeDelta { s with multiplier := m' } : ℚ)) 0
        with hd | hd
      · calc (netNativeSizeDelta { s with multiplier := m' } : ℚ) * m ≤ 0 :=
              mul_nonpos_of_nonpos_of_nonneg hd hm
          _ ≤ (SIZE_SCALE : ℚ) := by norm_num [SIZE_SCALE]
      · calc (netNativeSizeDelta { s with multiplier := m' } : ℚ) * m
              ≤ (netNativeSizeDelta { s with multiplier := m' } : ℚ) * m' :=
              mul_le_mul_of_nonneg_left hmm hd.le
          _ ≤ (SIZE_SCALE : ℚ) := hcond
    refine ⟨{ s with multiplier := m }, ?_, hcand'⟩
    unfold LegacyPolicy.DetermineProfitability
    rw [if_pos hcond']
  · have hrej : LegacyPolicy.DetermineProfitability { s with multiplier := m' } =
        liftLegacy (SetFailure .callsiteExceedsBudget) { s with multiplier := m' } := by
      unfold LegacyPolicy.DetermineProfitability
      rw [if_neg hcond]
    rw [hrej] at hs'
    obtain ⟨p, hp, hsp⟩ := liftLegacy_decision hs'
    have hdec : s'.decision = .failure := by
      rw [hsp]
      exact SetFailure_decision hp
    rw [hcand] at hdec
    exact absurd hdec (by simp)

/-- Witness for the amended C7: the concrete net-delta-1 candidate is
accepted at multiplier 5, and the theorem transfers that acceptance down to
multiplier 2. -/
theorem legacyPolicy_multiplier_antitone_witness :
    (0 : ℚ) ≤ 2 ∧ (2 : ℚ) ≤ 5
    ∧ (∃ s', LegacyPolicy.DetermineProfitability
        { lowMultiplierState with multiplier := 5 } = some s'
        ∧ s'.decision = .candidate)
    ∧ (∃ s', LegacyPolicy.DetermineProfitability
        { lowMultiplierState with multiplier := 2 } = some s'
        ∧ s'.decision = .candidate) := by
  refine ⟨by norm_num, by norm_num, ?_, ?_⟩
  · refine ⟨{ lowMultiplierState with multiplier := 5 }, ?_, rfl⟩
    unfold LegacyPolicy.DetermineProfitability
    rw [if_pos (by norm_num [netNativeSizeDelta, lowMultiplierState, SIZE_SCALE])]
  · refine legacyPolicy_multiplier_antitone lowMultiplierState 2 5
      (by norm_num) (by norm_num)
      ⟨{ lowMultiplierState with multiplier := 5 }, ?_, rfl⟩
    unfold LegacyPolicy.DetermineProfitability
    rw [if_pos (by norm_num [netNativeSizeDelta, lowMultiplierState, SIZE_SCALE])]

/-- State of an EnhancedLegacyPolicy instance: the LegacyPolicy state plus
the no-return flag pair of inlinepolicy.h lines 195-196. -/
structure EnhancedLegacyPolicyState extends LegacyPolicyState where
  isNoReturn : Bool
  isNoReturnKnown : Bool
deriving DecidableEq

/-- The C++ LegacyPolicy constructor (inlinepolicy.h lines 80-103): every
counter and flag starts at zero / false. -/
def LegacyPolicy.construct (isPrejitRoot : Bool) : LegacyPolicyState :=
  { toPolicyState := initialState isPrejitRoot, multiplier := 0, codeSize := 0,
    calleeNativeSizeEstimate := 0, callsiteNativeSizeEstimate := 0,
    isForceInline := false, isForceInlineKnown := false }

/-- The C++ EnhancedLegacyPolicy constructor (inlinepolicy.h lines
176-180): the LegacyPolicy state with both no-return flags false. -/
def EnhancedLegacyPolicy.construct (isPrejitRoot : Bool) : EnhancedLegacyPolicyState :=
  { toLegacyPolicyState := LegacyPolicy.construct isPrejitRoot,
    isNoReturn := false, isNoReturnKnown := false }

/-- Lift a legality-state transition to the EnhancedLegacyPolicy state. -/
def liftEnhanced (f : PolicyState → Option PolicyState)
    (s : EnhancedLegacyPolicyState) : Option EnhancedLegacyPolicyState :=
  (f s.toPolicyState).map
    (fun p => { s with toLegacyPolicyState :=
      { s.toLegacyPolicyState with toPolicyState := p } })

namespace EnhancedLegacyPolicy

/-- Modelled from the spec: EnhancedLegacyPolicy::NoteBool (declared at
inlinepolicy.h line 183, body not under src/).  Spec section 4.3: a callee
statically known to never return is rejected regardless of size, so the
observation records the flag pair and, when true, moves to the cacheable
Never state; every other kind behaves as in LegacyPolicy. -/
def NoteBool (obs : InlineObservation) (value : Bool)
    (s : EnhancedLegacyPolicyState) : Option EnhancedLegacyPolicyState :=
  match obs with
  | .calleeDoesNotReturn =>
      let s1 := { s with isNoReturn := value, isNoReturnKnown := true }
      if value then liftEnhanced (SetNever .calleeDoesNotReturn) s1 else some s1
  | _ =>
      (LegacyPolicy.NoteBool obs value s.toLegacyPolicyState).map
        (fun l => { s with toLegacyPolicyState := l })

/-- Modelled from the spec: EnhancedLegacyPolicy::PropagateNeverToRuntime
(declared at inlinepolicy.h line 187, body not under src/).  Spec section
4.3: true only when the never-returns reason — not a budget/size reason —
caused the Never verdict, since size-based rejections are call-site
specific and must not be cached as permanent. -/
def PropagateNeverToRuntime (s : EnhancedLegacyPolicyState) : Bool :=
  decide (s.observation = some .calleeDoesNotReturn)

/-- EnhancedLegacyPolicy::IsLegacyPolicy, translated from the inline body
at inlinepolicy.h lines 188-191. -/
def IsLegacyPolicy (_s : EnhancedLegacyPolicyState) : Bool :=
  false

end EnhancedLegacyPolicy

/-- The state a fresh EnhancedLegacyPolicy reaches after observing that
the callee never returns. -/
def noReturnNeverState (b : Bool) : EnhancedLegacyPolicyState :=
  { toLegacyPolicyState :=
      { LegacyPolicy.construct b with
        toPolicyState :=
          { initialState b with
            decision := .never
            observation := some .calleeDoesNotReturn } }
    isNoReturn := true
    isNoReturnKnown := true }

/-- C4: observing that the callee always throws and never returns sends a
fresh EnhancedLegacyPolicy to the Never state with PropagateNeverToRuntime
true; PropagateNeverToRuntime is false when a budget reason is the
recorded one; and plain LegacyPolicy fed the identical observation leaves
its state untouched (no rejection) while its PropagateNeverToRuntime is
unconditionally true (inline body, inlinepolicy.h lines 114-117). -/
theorem enhancedLegacy_noReturn_never (b : Bool) :
    (∃ e', EnhancedLegacyPolicy.NoteBool .calleeDoesNotReturn true
        (EnhancedLegacyPolicy.construct b) = some e'
      ∧ e'.decision = .never
      ∧ EnhancedLegacyPolicy.PropagateNeverToRuntime e' = true)
    ∧ (∀ e' : EnhancedLegacyPolicyState,
        e'.observation = some .callsiteExceedsBudget →
          EnhancedLegacyPolicy.PropagateNeverToRuntime e' = false)
    ∧ (LegacyPolicy.NoteBool .calleeDoesNotReturn true (LegacyPolicy.construct b) =
          some (LegacyPolicy.construct b)
        ∧ (LegacyPolicy.construct b).decision = .undetermined
        ∧ (∀ l : LegacyPolicyState, LegacyPolicy.PropagateNeverToRuntime l = true)) := by
  refine ⟨?_, ?_, rfl, rfl, fun _ => rfl⟩
  · exact ⟨noReturnNeverState b, rfl, rfl, rfl⟩
  · intro e' h
    unfold EnhancedLegacyPolicy.PropagateNeverToRuntime
    rw [h]
    rfl

/-- A concrete EnhancedLegacyPolicy state rejected for a budget reason. -/
def budgetRejectedEnhancedState : EnhancedLegacyPolicyState :=
  { toLegacyPolicyState :=
      { lowMultiplierState with
        toPolicyState :=
          { isPrejitRoot := false
            decision := .failure
            observation := some .callsiteExceedsBudget } }
    isNoReturn := false
    isNoReturnKnown := true }

/-- Witness for C4: the non-prejit instance reaches Never on the
never-returns observation with PropagateNeverToRuntime true, the concrete
budget-rejected state answers false, and the plain Legacy instance is
untouched by the same observation. -/
theorem enhancedLegacy_noReturn_never_witness :
    (∃ e', EnhancedLegacyPolicy.NoteBool .calleeDoesNotReturn true
        (EnhancedLegacyPolicy.construct false) = some e'
      ∧ e'.decision = .never
      ∧ EnhancedLegacyPolicy.PropagateNeverToRuntime e' = true)
    ∧ budgetRejectedEnhancedState.observation = some .callsiteExceedsBudget
    ∧ EnhancedLegacyPolicy.PropagateNeverToRuntime budgetRejectedEnhancedState = false
    ∧ LegacyPolicy.NoteBool .calleeDoesNotReturn true (LegacyPolicy.construct false) =
        some (LegacyPolicy.construct false) :=
  ⟨(enhancedLegacy_noReturn_never false).1, rfl,
    (enhancedLegacy_noReturn_never false).2.1 budgetRejectedEnhancedState rfl,
    (enhancedLegacy_noReturn_never false).2.2.1⟩

/-- State of a DiscretionaryPolicy instance (inlinepolicy.h lines
257-349): the legality state plus the derived model code-size estimate
(m_ModelCodeSizeEstimate, line 343), the only feature-vector field the
claims under verification depend on; the remaining counters of the feature
vector do not influence these claims and are omitted. -/
structure DiscretionaryPolicyState extends PolicyState where
  modelCodeSizeEstimate : Int
deriving DecidableEq, Repr

/-- Lift a legality-state transition to the DiscretionaryPolicy state. -/
def liftDiscretionary (f : PolicyState → Option PolicyState)
    (s : DiscretionaryPolicyState) : Option DiscretionaryPolicyState :=
  (f s.toPolicyState).map (fun p => { s with toPolicyState := p })

/-- Whether a recorded rejection reason is discretionary — a
profitability / budget (Limit) observation rather than a legality fact. -/
def discretionaryReason : Option InlineObservation → Bool
  | some obs => decide (impact obs = .limit)
  | none => false

/-- Modelled from the spec: DiscretionaryPolicy::PropagateNeverToRuntime
(declared at inlinepolicy.h line 268, body not under src/).  The class
comment at lines 250-253 and spec section 4.4: in prejit mode,
discretionary failures do not set the cacheable NEVER bit. -/
def DiscretionaryPolicy.PropagateNeverToRuntime (s : DiscretionaryPolicyState) : Bool :=
  if s.isPrejitRoot && discretionaryReason s.observation then false else true

/-- ModelPolicy::PropagateNeverToRuntime, translated from the inline body
at inlinepolicy.h lines 367-370: unconditionally true, overriding the
DiscretionaryPolicy behavior.  ModelPolicy adds no data members
(inlinepolicy.h lines 354-381), so it shares the DiscretionaryPolicy
state. -/
def ModelPolicy.PropagateNeverToRuntime (_s : DiscretionaryPolicyState) : Bool :=
  true

/-- Modelled from the spec: SizePolicy::DetermineProfitability (declared
at inlinepolicy.h line 420, body not under src/).  Spec section 4.6: the
Size policy accepts only candidates whose estimated net size delta is
non-positive (never grows the caller); a positive delta is rejected as not
profitable. -/
def SizePolicy.DetermineProfitability (s : DiscretionaryPolicyState) :
    Option DiscretionaryPolicyState :=
  if s.modelCodeSizeEstimate ≤ 0 then some s
  else liftDiscretionary (SetFailure .callsiteNotProfitable) s

theorem liftDiscretionary_decision {f : PolicyState → Option PolicyState}
    {s s' : DiscretionaryPolicyState} (h : liftDiscretionary f s = some s') :
    ∃ p, f s.toPolicyState = some p ∧ s' = { s with toPolicyState := p } := by
  unfold liftDiscretionary at h
  cases hp : f s.toPolicyState with
  | none => rw [hp] at h; simp at h
  | some p =>
      rw [hp] at h
      exact ⟨p, rfl, (Option.some_inj.mp h).symm⟩

/-- C5: SizePolicy accepts a candidate exactly when its estimated net size
delta is non-positive — it never produces an accepting verdict on a
positive delta. -/
theorem sizePolicy_no_growth (s : DiscretionaryPolicyState)
    (hc : s.decision = .candidate) :
    ((∃ s', SizePolicy.DetermineProfitability s = some s'
        ∧ s'.decision = .candidate)
      ↔ s.modelCodeSizeEstimate ≤ 0)
    ∧ (0 < s.modelCodeSizeEstimate →
        ∃ s', SizePolicy.DetermineProfitability s = some s'
          ∧ s'.decision = .failure) := by
  by_cases hle : s.modelCodeSizeEstimate ≤ 0
  · constructor
    · constructor
      · intro _
        exact hle
      · intro _
        refine ⟨s, ?_, hc⟩
        unfold SizePolicy.DetermineProfitability
        rw [if_pos hle]
    · intro hpos
      exact absurd hle (not_le.mpr hpos)
  · have hrej : SizePolicy.DetermineProfitability s =
        liftDiscretionary (SetFailure .callsiteNotProfitable) s := by
      unfold SizePolicy.DetermineProfitability
      rw [if_neg hle]
    constructor
    · constructor
      · rintro ⟨s', hs', hcand⟩
        rw [hrej] at hs'
        obtain ⟨p, hp, hsp⟩ := liftDiscretionary_decision hs'
        have hdec : s'.decision = .failure := by
          rw [hsp]
          exact SetFailure_decision hp
        rw [hcand] at hdec
        exact absurd hdec (by simp)
      · intro hcond
        exact absurd hcond hle
    · intro _
      have hsf : SetFailure .callsiteNotProfitable s.toPolicyState =
          some { s.toPolicyState with
                 decision := .failure
                 observation := some .callsiteNotProfitable } := by
        unfold SetFailure
        rw [hc]
      refine ⟨{ s with toPolicyState :=
          { s.toPolicyState with
            decision := .failure
            observation := some .callsiteNotProfitable } }, ?_, rfl⟩
      rw [hrej]
      unfold liftDiscretionary
      rw [hsf]
      rfl

/-- A concrete Size-policy candidate whose estimated delta shrinks the
caller. -/
def shrinkingCandidateState : DiscretionaryPolicyState :=
  { isPrejitRoot := false, decision := .candidate,
    observation := some .calleeBelowAlwaysInlineSize,
    modelCodeSizeEstimate := -3 }

/-- A concrete Size-policy candidate whose estimated delta grows the
caller. -/
def growingCandidateState : DiscretionaryPolicyState :=
  { shrinkingCandidateState with modelCodeSizeEstimate := 4 }

/-- Witness for C5: the shrinking candidate (delta -3) is accepted, the
growing candidate (delta 4) is not accepted and is rejected. -/
theorem sizePolicy_no_growth_witness :
    shrinkingCandidateState.decision = .candidate
    ∧ ((∃ s', SizePolicy.DetermineProfitability shrinkingCandidateState = some s'
        ∧ s'.decision = .candidate)
      ↔ shrinkingCandidateState.modelCodeSizeEstimate ≤ 0)
    ∧ (0 < growingCandidateState.modelCodeSizeEstimate →
        ∃ s', SizePolicy.DetermineProfitability growingCandidateState = some s'
          ∧ s'.decision = .failure) :=
  ⟨rfl, (sizePolicy_no_growth shrinkingCandidateState rfl).1,
    (sizePolicy_no_growth growingCandidateState rfl).2⟩

/-- C8: a DiscretionaryPolicy instance constructed as a prejit root whose
rejection is discretionary (the recorded reason is a budget/profitability
Limit observation) reports PropagateNeverToRuntime false, so the
cacheable Never bit is never set by a prejit discretionary rejection. -/
theorem discretionaryPolicy_prejit_no_never (s : DiscretionaryPolicyState)
    (obs : InlineObservation) (hp : s.isPrejitRoot = true)
    (hobs : s.observation = some obs) (hl : impact obs = .limit) :
    DiscretionaryPolicy.PropagateNeverToRuntime s = false := by
  unfold DiscretionaryPolicy.PropagateNeverToRuntime
  rw [hp, hobs]
  simp [discretionaryReason, hl]

/-- A concrete prejit DiscretionaryPolicy evaluation rejected for a
discretionary (not-profitable) reason. -/
def prejitDiscretionaryRejected : DiscretionaryPolicyState :=
  { isPrejitRoot := true, decision := .failure,
    observation := some .callsiteNotProfitable,
    modelCodeSizeEstimate := 25 }

/-- Witness for C8: the concrete prejit discretionary rejection reports
PropagateNeverToRuntime false. -/
theorem discretionaryPolicy_prejit_no_never_witness :
    prejitDiscretionaryRejected.isPrejitRoot = true
    ∧ prejitDiscretionaryRejected.observation = some .callsiteNotProfitable
    ∧ impact InlineObservation.callsiteNotProfitable = .limit
    ∧ DiscretionaryPolicy.PropagateNeverToRuntime prejitDiscretionaryRejected = false :=
  ⟨rfl, rfl, rfl,
    discretionaryPolicy_prejit_no_never prejitDiscretionaryRejected
      .callsiteNotProfitable rfl rfl rfl⟩

/-- C9: ModelPolicy::PropagateNeverToRuntime is unconditionally true — for
every instance, including the prejit discretionary rejection on which its
DiscretionaryPolicy parent answers false. -/
theorem modelPolicy_propagate_never_unconditional :
    (∀ s : DiscretionaryPolicyState, ModelPolicy.PropagateNeverToRuntime s = true)
    ∧ DiscretionaryPolicy.PropagateNeverToRuntime prejitDiscretionaryRejected = false
    ∧ ModelPolicy.PropagateNeverToRuntime prejitDiscretionaryRejected = true :=
  ⟨fun _ => rfl, rfl, rfl⟩

/-- State of a RandomPolicy instance (inlinepolicy.h lines 239-246): the
legality state plus the pseudorandom source state (m_Random, held by
pointer in the code), the observed code size (m_CodeSize) and the
force-inline flag pair. -/
structure RandomPolicyState extends PolicyState where
  rngState : Nat
  codeSize : Nat
  isForceInline : Bool
  isForceInlineKnown : Bool
deriving DecidableEq, Repr

/-- The C++ RandomPolicy constructor (declared at inlinepolicy.h line 208):
fresh legality state, the caller-provided seed stored in the pseudorandom
source, counters and flags cleared. -/
def RandomPolicy.construct (isPrejitRoot : Bool) (seed : Nat) : RandomPolicyState :=
  { toPolicyState := initialState isPrejitRoot, rngState := seed,
    codeSize := 0, isForceInline := false, isForceInlineKnown := false }

/-- Modelled from the spec: one step of the seeded pseudorandom source
(CLRRandom, supplied at construction; spec section 6, Randomness — not
under src/).  Any deterministic function of the stored state fits the
spec; a linear congruential step is used here. -/
def nextRandom (state : Nat) : Nat :=
  (state * 1103515245 + 12345) % 2 ^ 31

/-- Lift a legality-state transition to the RandomPolicy state. -/
def liftRandom (f : PolicyState → Option PolicyState)
    (s : RandomPolicyState) : Option RandomPolicyState :=
  (f s.toPolicyState).map (fun p => { s with toPolicyState := p })

namespace RandomPolicy

/-- Modelled from the spec: RandomPolicy::NoteBool (declared at
inlinepolicy.h line 212, body not under src/).  Heuristic observations are
ignored (spec section 4.6); the force-inline flag pair is stored; failing
kinds still route to NoteInternal (legality checks still apply). -/
def NoteBool (obs : InlineObservation) (value : Bool)
    (s : RandomPolicyState) : Option RandomPolicyState :=
  match obs with
  | .calleeIsForceInline =>
      some { s with isForceInline := value, isForceInlineKnown := true }
  | _ =>
      if isFailingImpact (impact obs) then liftRandom (NoteInternal obs) s
      else some s

/-- Modelled from the spec: RandomPolicy::NoteInt (declared at
inlinepolicy.h line 213, body not under src/).  The observed IL code size
is stored (m_CodeSize, inlinepolicy.h line 243); other heuristic
observations are ignored; failing kinds route to NoteInternal. -/
def NoteInt (obs : InlineObservation) (value : Int)
    (s : RandomPolicyState) : Option RandomPolicyState :=
  match obs with
  | .calleeIlCodeSize => some { s with codeSize := value.toNat }
  | _ =>
      if isFailingImpact (impact obs) then liftRandom (NoteInternal obs) s
      else some s

end RandomPolicy

/-- One observation delivered by the driver to a RandomPolicy instance
(spec section 4.1): a fatal fact, a boolean fact or an integer fact. -/
inductive ObsEvent
  | noteF (obs : InlineObservation)
  | noteB (obs : InlineObservation) (value : Bool)
  | noteI (obs : InlineObservation) (value : Int)
deriving DecidableEq, Repr

namespace RandomPolicy

/-- Dispatch one observation event to the matching entry point. -/
def note : ObsEvent → RandomPolicyState → Option RandomPolicyState
  | .noteF obs, s => liftRandom (NoteFatal obs) s
  | .noteB obs v, s => NoteBool obs v s
  | .noteI obs v, s => NoteInt obs v s

/-- Feed a whole observation sequence, stopping at the first fault. -/
def runObs : List ObsEvent → RandomPolicyState → Option RandomPolicyState
  | [], s => some s
  | e :: rest, s => (note e s).bind (runObs rest)

/-- Modelled from the spec: the hard size ceiling bounding the random
policy's expansion (spec section 4.6); a configurable constant. -/
def sizeCeiling : Nat := 100

/-- Modelled from the spec: RandomPolicy::DetermineProfitability (declared
at inlinepolicy.h line 216, body not under src/).  Spec section 4.6:
forced inlines are always accepted, a hard size ceiling rejects runaway
expansion, and otherwise a draw from the seeded pseudorandom source
decides; the verdict is returned with the updated state. -/
def DetermineProfitability (s : RandomPolicyState) : RandomPolicyState × Bool :=
  if s.isForceInlineKnown && s.isForceInline then (s, true)
  else if sizeCeiling < s.codeSize then (s, false)
  else
    let draw := nextRandom s.rngState
    ({ s with rngState := draw }, draw % 2 = 0)

/-- RandomPolicy::CodeSizeEstimate, translated from the inline body at
inlinepolicy.h lines 229-232: returns 0, whatever the instance state. -/
def CodeSizeEstimate (_s : RandomPolicyState) : Int :=
  0

/-- RandomPolicy::PropagateNeverToRuntime, translated from the inline body
at inlinepolicy.h lines 219-222: unconditionally true. -/
def PropagateNeverToRuntime (_s : RandomPolicyState) : Bool :=
  true

/-- The final verdict of one whole RandomPolicy evaluation: feed the
observations, then determine profitability; none when the observation
stream faulted. -/
def finalVerdict (isPrejitRoot : Bool) (seed : Nat)
    (events : List ObsEvent) : Option Bool :=
  (runObs events (construct isPrejitRoot seed)).map
    (fun s => (DetermineProfitability s).2)

end RandomPolicy

/-- C6: the RandomPolicy outcome is a deterministic function of the seed
and the observation stream — two instances constructed with the same seed
and fed the same observation sequence produce identical final verdicts. -/
theorem randomPolicy_seed_determinism (p1 p2 : RandomPolicyState)
    (isPrejitRoot : Bool) (seed : Nat) (events : List ObsEvent)
    (h1 : p1 = RandomPolicy.construct isPrejitRoot seed)
    (h2 : p2 = RandomPolicy.construct isPrejitRoot seed) :
    (RandomPolicy.runObs events p1).map
        (fun s => (RandomPolicy.DetermineProfitability s).2)
      = (RandomPolicy.runObs events p2).map
        (fun s => (RandomPolicy.DetermineProfitability s).2) := by
  rw [h1, h2]

/-- A concrete observation stream for the random-policy witnesses. -/
def stressEvents : List ObsEvent :=
  [ObsEvent.noteB .calleeIsForceInline false, ObsEvent.noteI .calleeIlCodeSize 30,
   ObsEvent.noteI .calleeNumberOfBasicBlocks 2]

/-- Witness for C6: two instances seeded with 42 and fed the same concrete
stream agree on the verdict. -/
theorem randomPolicy_seed_determinism_witness :
    RandomPolicy.construct false 42 = RandomPolicy.construct false 42
    ∧ (RandomPolicy.runObs stressEvents (RandomPolicy.construct false 42)).map
        (fun s => (RandomPolicy.DetermineProfitability s).2)
      = (RandomPolicy.runObs stressEvents (RandomPolicy.construct false 42)).map
        (fun s => (RandomPolicy.DetermineProfitability s).2) :=
  ⟨rfl, randomPolicy_seed_determinism (RandomPolicy.construct false 42)
    (RandomPolicy.construct false 42) false 42 stressEvents rfl rfl⟩

/-- C10: RandomPolicy::CodeSizeEstimate is 0 for every instance reached by
any observation sequence from construction, whatever code size was
observed along the way. -/
theorem randomPolicy_codeSizeEstimate_zero (isPrejitRoot : Bool) (seed : Nat)
    (events : List ObsEvent) (s' : RandomPolicyState)
    (_h : RandomPolicy.runObs events (RandomPolicy.construct isPrejitRoot seed)
      = some s') :
    RandomPolicy.CodeSizeEstimate s' = 0 :=
  rfl

/-- The state reached after observing an IL code size of 50 from a fresh
seed-7 instance. -/
def observedSizeState : RandomPolicyState :=
  { toPolicyState := initialState false, rngState := 7,
    codeSize := 50, isForceInline := false, isForceInlineKnown := false }

/-- Witness for C10: a run that observes code size 50 records it in the
state, yet the size estimate handed to the driver is 0. -/
theorem randomPolicy_codeSizeEstimate_zero_witness :
    RandomPolicy.runObs [ObsEvent.noteI .calleeIlCodeSize 50]
        (RandomPolicy.construct false 7) = some observedSizeState
    ∧ observedSizeState.codeSize = 50
    ∧ RandomPolicy.CodeSizeEstimate observedSizeState = 0 :=
  ⟨by decide, rfl,
    randomPolicy_codeSizeEstimate_zero false 7
      [ObsEvent.noteI .calleeIlCodeSize 50] observedSizeState (by decide)⟩

end InlinePolicy
